import Mathlib

/-!
Shallow embedding of the movement / time-loop engine of the
`interference-factory` game (src/src/main.rs) and proofs about it.

The embedded systems are `process_movement_input`, `debuffer_move_inputs`,
`move_player_on_grid`, `record_move_attempts`, `reset_recording` and
`detect_game_over`, plus the app-level `Playing`/`GameOver` state cycle of
`main`.  Machine integers (`i32` in the source) are modelled as `Int`; the
grid is tiny and no arithmetic here can approach `i32` overflow.
-/

/-- Bevy's `IVec2`: a 2D integer vector. -/
structure IVec2 where
  x : Int
  y : Int
deriving DecidableEq

def IVec2.add (a b : IVec2) : IVec2 := ⟨a.x + b.x, a.y + b.y⟩

instance : Add IVec2 := ⟨IVec2.add⟩

/-- `const MAX_X: i32 = 5;` (main.rs line 132). -/
def MAX_X : Int := 5

/-- `const MAX_Y: i32 = 5;` (main.rs line 133). -/
def MAX_Y : Int := 5

/-- The `Inventory` component (main.rs lines 167-171). -/
structure Inventory where
  candies : Int
  fuel : Int
deriving DecidableEq

/-- The state of the single `Player` entity that `move_player_on_grid`
queries: its `GridLocation` and its `Inventory`. -/
structure PlayerState where
  location : IVec2
  inventory : Inventory
deriving DecidableEq

/-- A `MoveAttempt` event (main.rs lines 244-248).  The `player : Entity`
field is omitted: the game has a single player entity and every function
resolves the entity to that one player. -/
structure MoveAttempt where
  offset : IVec2
deriving DecidableEq

/-- The fuel-cost computation of `move_player_on_grid`
(main.rs lines 284-290): start at 0, add 1 if `offset.x < 0`,
add 1 if `offset.y > 0`. -/
def fuel_cost_of (offset : IVec2) : Int :=
  let fuel_cost : Int := 0
  let fuel_cost := if offset.x < 0 then fuel_cost + 1 else fuel_cost
  let fuel_cost := if offset.y > 0 then fuel_cost + 1 else fuel_cost
  fuel_cost

/-- The bounds test of `move_player_on_grid` (main.rs line 297):
`next_pos.x < 0 || next_pos.x >= MAX_X || next_pos.y < 0 || next_pos.y >= MAX_Y`. -/
def out_of_bounds (next_pos : IVec2) : Bool :=
  decide (next_pos.x < 0) || decide (next_pos.x ≥ MAX_X) ||
  decide (next_pos.y < 0) || decide (next_pos.y ≥ MAX_Y)

/-- The body of `move_player_on_grid` (main.rs lines 281-307) applied to a
single `MoveAttempt`: reject (return the state unchanged) when
`fuel_cost > inventory.fuel` or when the destination is out of bounds;
otherwise set the location to `next_pos` and, when `fuel_cost > 0`,
subtract it from the fuel. -/
def apply_move_attempt (s : PlayerState) (a : MoveAttempt) : PlayerState :=
  let fuel_cost := fuel_cost_of a.offset
  if fuel_cost > s.inventory.fuel then s
  else
    let next_pos := s.location + a.offset
    if out_of_bounds next_pos then s
    else
      { location := next_pos
        inventory :=
          { s.inventory with
            fuel := if fuel_cost > 0 then s.inventory.fuel - fuel_cost
                    else s.inventory.fuel } }

/-- The acceptance condition of `move_player_on_grid`: the attempt passes
both the fuel check and the bounds check (the path that mutates state). -/
def accepted (s : PlayerState) (a : MoveAttempt) : Bool :=
  decide (fuel_cost_of a.offset ≤ s.inventory.fuel) &&
  !(out_of_bounds (s.location + a.offset))

/-- A sequence of ticks each carrying one processed `MoveAttempt`. -/
def run_moves (s : PlayerState) (attempts : List MoveAttempt) : PlayerState :=
  attempts.foldl apply_move_attempt s

/-- The set of just-pressed logical directions supplied by the keyboard in one
tick, in the order `process_movement_input` tests them
(main.rs lines 226-237): Right/D, Left/A, Down/S, Up/W. -/
structure PressedDirections where
  right : Bool
  left : Bool
  down : Bool
  up : Bool

/-- The offset accumulated by `process_movement_input` from the just-pressed
directions (main.rs lines 225-237): start at `(0,0)`, `x += 1` on Right,
`x -= 1` on Left, `y -= 1` on Down, `y += 1` on Up. -/
def movement_offset (p : PressedDirections) : IVec2 :=
  let offset : IVec2 := ⟨0, 0⟩
  let offset := if p.right then { offset with x := offset.x + 1 } else offset
  let offset := if p.left then { offset with x := offset.x - 1 } else offset
  let offset := if p.down then { offset with y := offset.y - 1 } else offset
  let offset := if p.up then { offset with y := offset.y + 1 } else offset
  offset

/-- `IVec2::length_squared`. -/
def length_squared (v : IVec2) : Int := v.x * v.x + v.y * v.y

/-- The buffer update of `process_movement_input` (main.rs lines 239-241):
the accumulated offset overwrites `move_buffer.next_move` exactly when
`offset.length_squared() > 0`; otherwise the buffer keeps its old value. -/
def process_movement_input (p : PressedDirections) (next_move : IVec2) : IVec2 :=
  let offset := movement_offset p
  if length_squared offset > 0 then offset else next_move

/-- `move_player_on_grid` over the tick's `MoveAttempt` event list
(main.rs lines 269-307): return unchanged on no events, panic
(`Except.error`) on more than one event, otherwise process the single
attempt.  The panic models `panic!("Multiple move attempts in one frame!")`. -/
def move_player_on_grid (events : List MoveAttempt) (s : PlayerState) :
    Except String PlayerState :=
  match events with
  | [] => Except.ok s
  | [a] => Except.ok (apply_move_attempt s a)
  | _ :: _ :: _ => Except.error "Multiple move attempts in one frame!"

/-- Whether the modelled system crashed (a Rust `panic!`). -/
def is_panic (r : Except String PlayerState) : Bool :=
  match r with
  | Except.error _ => true
  | Except.ok _ => false

/-- `record_move_attempts` (main.rs lines 314-321): push the offset of every
`MoveAttempt` event of this tick onto `TimeLoopRecording.moves`. -/
def record_move_attempts (recording : List IVec2) (events : List MoveAttempt) :
    List IVec2 :=
  events.foldl (fun moves e => moves ++ [e.offset]) recording

/-- The player state together with the `TimeLoopRecording` resource. -/
structure TickState where
  player : PlayerState
  recording : List IVec2
deriving DecidableEq

/-- One tick of the movement pipeline in main.rs's `Update` schedule order:
`move_player_on_grid` then `record_move_attempts`, both reading the same
`MoveAttempt` event list. -/
def move_tick (st : TickState) (events : List MoveAttempt) :
    Except String TickState :=
  match move_player_on_grid events st.player with
  | Except.error e => Except.error e
  | Except.ok p => Except.ok ⟨p, record_move_attempts st.recording events⟩

/-- The goal cell `GridLocation(IVec2{x: MAX_X - 1, y: 0})`
(main.rs line 335). -/
def goal_cell : IVec2 := ⟨MAX_X - 1, 0⟩

/-- `detect_game_over` (main.rs lines 329-338): return early (no transition)
while the player's animation timer is not finished; otherwise transition to
`GameOver` exactly when the player's location equals the goal cell.  The
result is whether `next_state.set(AppState::GameOver)` ran this tick. -/
def detect_game_over (location : IVec2) (anim_finished : Bool) : Bool :=
  if !anim_finished then false
  else decide (location = goal_cell)

/-- `reset_recording` (main.rs lines 323-327): pop (and print) the last
element of `moves` once per index of `0..recording.moves.len()`, the length
being read once before the loop. -/
def reset_recording (moves : List IVec2) : List IVec2 :=
  (List.range moves.length).foldl (fun moves _ => moves.dropLast) moves

/-- `AppState` (main.rs lines 97-102). -/
inductive AppState where
  | Playing
  | GameOver
deriving DecidableEq

/-- An externally triggered step of the app: a simulation tick while
`Playing` (carrying the tick's `MoveAttempt` events and whether the player's
animation timer is finished), or the game-over screen's Restart button press
(game_over_screen.rs lines 62-65), which sets the state back to `Playing`. -/
inductive GameEvent where
  | tick (events : List MoveAttempt) (anim_finished : Bool)
  | restart

/-- The app-level state relevant to the recording's lifetime.
`completed_playthroughs` is a ghost counter of `Playing → GameOver`
transitions, used to state when the recording is cleared relative to
finished level iterations. -/
structure AppModel where
  state : AppState
  player : PlayerState
  recording : List IVec2
  completed_playthroughs : Nat
deriving DecidableEq

/-- The freshly spawned player (main.rs lines 188-199): located at
`(0, MAX_Y - 1)` with an empty inventory. -/
def initial_player : PlayerState := ⟨⟨0, MAX_Y - 1⟩, ⟨0, 0⟩⟩

def initial_model : AppModel := ⟨AppState.Playing, initial_player, [], 0⟩

/-- One app-level step of main.rs's state machine.  While `Playing`, a tick
runs the movement pipeline and then `detect_game_over`.  On leaving
`GameOver` (Restart pressed), `OnExit(AppState::GameOver)` runs
`despawn_after_game_over` and `reset_recording` (main.rs line 93) and
`OnEnter(AppState::Playing)` respawns a fresh player. -/
def step_app (m : AppModel) (e : GameEvent) : Except String AppModel :=
  match m.state, e with
  | AppState.Playing, GameEvent.tick events anim_finished =>
      match move_tick ⟨m.player, m.recording⟩ events with
      | Except.error s => Except.error s
      | Except.ok t =>
          if detect_game_over t.player.location anim_finished
          then Except.ok ⟨AppState.GameOver, t.player, t.recording,
                          m.completed_playthroughs + 1⟩
          else Except.ok ⟨AppState.Playing, t.player, t.recording,
                          m.completed_playthroughs⟩
  | AppState.GameOver, GameEvent.restart =>
      Except.ok ⟨AppState.Playing, initial_player,
                 reset_recording m.recording, m.completed_playthroughs⟩
  | _, _ => Except.ok m

def run_app (m : AppModel) : List GameEvent → Except String AppModel
  | [] => Except.ok m
  | e :: rest =>
      match step_app m e with
      | Except.error s => Except.error s
      | Except.ok m2 => run_app m2 rest

/-- The offsets of the attempts a run from `s` accepts, in acceptance
order: the sequence the spec says the loop-0 recording should contain. -/
def accepted_offsets : PlayerState → List MoveAttempt → List IVec2
  | _, [] => []
  | s, a :: rest =>
      if accepted s a then
        a.offset :: accepted_offsets (apply_move_attempt s a) rest
      else accepted_offsets (apply_move_attempt s a) rest

/-- The grid location after each accepted move of a run from `s`, in
order: the loop-0 agent's observable location sequence. -/
def accepted_loc_trace : PlayerState → List MoveAttempt → List IVec2
  | _, [] => []
  | s, a :: rest =>
      if accepted s a then
        (apply_move_attempt s a).location ::
          accepted_loc_trace (apply_move_attempt s a) rest
      else accepted_loc_trace (apply_move_attempt s a) rest

/-- Modelled from the spec: the loop-1 echo replay system is absent from
src (main.rs's time-loop todo list marks it unimplemented, and
spawn_level.rs refers to a `crate::LoopCounter` that no file under src
defines).  Per the spec, the echo dequeues offsets from the front of the
recording in FIFO order and issues each as its own `MoveAttempt` through
the same validator, i.e. `apply_move_attempt`.  This returns the echo's
grid location after each replayed offset. -/
def replay_loc_trace : PlayerState → List IVec2 → List IVec2
  | _, [] => []
  | s, o :: rest =>
      (apply_move_attempt s ⟨o⟩).location ::
        replay_loc_trace (apply_move_attempt s ⟨o⟩) rest

/-- Modelled from the spec: whether every offset of the replayed queue is
accepted by the validator at the moment the echo issues it. -/
def replay_all_accepted : PlayerState → List IVec2 → Bool
  | _, [] => true
  | s, o :: rest =>
      accepted s ⟨o⟩ && replay_all_accepted (apply_move_attempt s ⟨o⟩) rest

lemma apply_move_attempt_rejected (s : PlayerState) (a : MoveAttempt)
    (h : accepted s a = false) : apply_move_attempt s a = s := by
  unfold accepted at h
  unfold apply_move_attempt
  rcases Bool.and_eq_false_iff.mp h with h1 | h1
  · have : fuel_cost_of a.offset > s.inventory.fuel := by
      by_contra hc
      simp [not_lt] at hc
      simp [hc] at h1
    simp [this]
  · have hoob : out_of_bounds (s.location + a.offset) = true := by
      cases hb : out_of_bounds (s.location + a.offset) with
      | false => simp [hb] at h1
      | true => rfl
    by_cases hf : fuel_cost_of a.offset > s.inventory.fuel
    · simp [hf]
    · simp [hf, hoob]

lemma apply_move_attempt_accepted (s : PlayerState) (a : MoveAttempt)
    (h : accepted s a = true) :
    apply_move_attempt s a =
      { location := s.location + a.offset
        inventory :=
          { s.inventory with
            fuel := if fuel_cost_of a.offset > 0
                    then s.inventory.fuel - fuel_cost_of a.offset
                    else s.inventory.fuel } } := by
  unfold accepted at h
  rcases Bool.and_eq_true_iff.mp h with ⟨h1, h2⟩
  have hf : ¬ fuel_cost_of a.offset > s.inventory.fuel := by
    simpa [not_lt] using of_decide_eq_true h1
  have hoob : out_of_bounds (s.location + a.offset) = false := by
    cases hb : out_of_bounds (s.location + a.offset) with
    | false => rfl
    | true => simp [hb] at h2
  unfold apply_move_attempt
  simp [hf, hoob]

lemma fuel_cost_nonneg (o : IVec2) : 0 ≤ fuel_cost_of o := by
  unfold fuel_cost_of
  dsimp only
  split <;> split <;> omega

lemma fuel_nonneg_step (s : PlayerState) (a : MoveAttempt)
    (h : 0 ≤ s.inventory.fuel) :
    0 ≤ (apply_move_attempt s a).inventory.fuel := by
  unfold apply_move_attempt
  by_cases hf : fuel_cost_of a.offset > s.inventory.fuel
  · simpa [hf] using h
  · by_cases hoob : out_of_bounds (s.location + a.offset) = true
    · simp [hf, hoob]; exact h
    · simp only [Bool.not_eq_true] at hoob
      simp only [hf, hoob, if_false, if_neg, Bool.false_eq_true]
      by_cases hpos : fuel_cost_of a.offset > 0
      · simp [hpos]; omega
      · simp [hpos]; exact h

/-- Claim C1: the fuel cost computed by the move pipeline equals
(1 if `offset.x < 0` else 0) + (1 if `offset.y > 0` else 0); every offset
with `x < 0` or `y > 0` costs at least 1 fuel, and every pure down/right
offset (`x ≥ 0` and `y ≤ 0`) costs exactly 0. -/
theorem C1_fuel_cost (o : IVec2) :
    fuel_cost_of o = (if o.x < 0 then 1 else 0) + (if o.y > 0 then 1 else 0)
    ∧ ((o.x < 0 ∨ 0 < o.y) → 1 ≤ fuel_cost_of o)
    ∧ (0 ≤ o.x → o.y ≤ 0 → fuel_cost_of o = 0) := by
  unfold fuel_cost_of
  dsimp only
  refine ⟨?_, ?_, ?_⟩
  · split <;> split <;> omega
  · intro h
    rcases h with h | h
    · simp only [if_pos h]
      split <;> omega
    · have : 0 < o.y := h
      split <;> simp [this] <;> omega
  · intro hx hy
    have h1 : ¬ o.x < 0 := by omega
    have h2 : ¬ 0 < o.y := by omega
    simp [h1, h2]

theorem C1_fuel_cost_witness :
    1 ≤ fuel_cost_of ⟨-1, 0⟩ ∧ fuel_cost_of ⟨1, 0⟩ = 0 :=
  ⟨(C1_fuel_cost ⟨-1, 0⟩).2.1 (Or.inl (by decide)),
   (C1_fuel_cost ⟨1, 0⟩).2.2 (by decide) (by decide)⟩

/-- Claim C2: starting from non-negative fuel, the fuel never becomes
negative after any sequence of processed move attempts; an attempt whose
fuel cost exceeds the current fuel leaves the whole state unchanged; an
accepted move deducts exactly its fuel cost. -/
theorem C2_fuel_never_negative (s : PlayerState) (attempts : List MoveAttempt)
    (h : 0 ≤ s.inventory.fuel) :
    0 ≤ (run_moves s attempts).inventory.fuel
    ∧ (∀ a : MoveAttempt, fuel_cost_of a.offset > s.inventory.fuel →
        apply_move_attempt s a = s)
    ∧ (∀ a : MoveAttempt, accepted s a = true →
        (apply_move_attempt s a).inventory.fuel
          = s.inventory.fuel - fuel_cost_of a.offset) := by
  refine ⟨?_, ?_, ?_⟩
  · induction attempts generalizing s with
    | nil => exact h
    | cons a rest ih =>
        exact ih (apply_move_attempt s a) (fuel_nonneg_step s a h)
  · intro a hf
    unfold apply_move_attempt
    simp [hf]
  · intro a ha
    rw [apply_move_attempt_accepted s a ha]
    by_cases hpos : fuel_cost_of a.offset > 0
    · simp [hpos]
    · have : fuel_cost_of a.offset = 0 := by
        have := fuel_cost_nonneg a.offset
        omega
      simp [hpos, this]

theorem C2_fuel_never_negative_witness :
    (0 : Int) ≤ ((⟨⟨0, 4⟩, ⟨0, 1⟩⟩ : PlayerState)).inventory.fuel
    ∧ 0 ≤ (run_moves ⟨⟨0, 4⟩, ⟨0, 1⟩⟩
        [⟨⟨0, 1⟩⟩, ⟨⟨1, 0⟩⟩, ⟨⟨0, 1⟩⟩, ⟨⟨0, -1⟩⟩]).inventory.fuel :=
  ⟨by decide,
   (C2_fuel_never_negative ⟨⟨0, 4⟩, ⟨0, 1⟩⟩
      [⟨⟨0, 1⟩⟩, ⟨⟨1, 0⟩⟩, ⟨⟨0, 1⟩⟩, ⟨⟨0, -1⟩⟩] (by decide)).1⟩

/-- Claim C3: a move attempt whose destination `location + offset` falls
outside `[0, MAX_X) x [0, MAX_Y)` leaves the player's grid location
unchanged, whatever the fuel. -/
theorem C3_out_of_bounds_rejected (s : PlayerState) (a : MoveAttempt)
    (h : out_of_bounds (s.location + a.offset) = true) :
    (apply_move_attempt s a).location = s.location := by
  unfold apply_move_attempt
  by_cases hf : fuel_cost_of a.offset > s.inventory.fuel
  · simp [hf]
  · simp [hf, h]

theorem C3_out_of_bounds_rejected_witness :
    out_of_bounds ((⟨0, 0⟩ : IVec2) + (⟨-1, 0⟩ : IVec2)) = true
    ∧ (apply_move_attempt ⟨⟨0, 0⟩, ⟨0, 1⟩⟩ ⟨⟨-1, 0⟩⟩).location
        = (⟨0, 0⟩ : IVec2) :=
  ⟨by decide, C3_out_of_bounds_rejected ⟨⟨0, 0⟩, ⟨0, 1⟩⟩ ⟨⟨-1, 0⟩⟩ (by decide)⟩

/-- Claim C10: rejection is atomic — a move attempt rejected for
insufficient fuel or for an out-of-bounds destination leaves the whole
player state (location, fuel and candies) unchanged. -/
theorem C10_rejection_atomic (s : PlayerState) (a : MoveAttempt)
    (h : fuel_cost_of a.offset > s.inventory.fuel
         ∨ out_of_bounds (s.location + a.offset) = true) :
    apply_move_attempt s a = s := by
  apply apply_move_attempt_rejected
  unfold accepted
  rcases h with h | h
  · have : ¬ fuel_cost_of a.offset ≤ s.inventory.fuel := by omega
    simp [this]
  · simp [h]

theorem C10_rejection_atomic_witness :
    (fuel_cost_of (⟨0, 1⟩ : IVec2) > ((⟨⟨2, 2⟩, ⟨3, 0⟩⟩ : PlayerState)).inventory.fuel
      ∨ out_of_bounds ((⟨2, 2⟩ : IVec2) + (⟨0, 1⟩ : IVec2)) = true)
    ∧ apply_move_attempt ⟨⟨2, 2⟩, ⟨3, 0⟩⟩ ⟨⟨0, 1⟩⟩ = ⟨⟨2, 2⟩, ⟨3, 0⟩⟩ :=
  ⟨Or.inl (by decide),
   C10_rejection_atomic ⟨⟨2, 2⟩, ⟨3, 0⟩⟩ ⟨⟨0, 1⟩⟩ (Or.inl (by decide))⟩

lemma length_squared_pos (v : IVec2) (h : v ≠ ⟨0, 0⟩) : 0 < length_squared v := by
  rcases v with ⟨x, y⟩
  unfold length_squared
  dsimp only
  rcases eq_or_ne x 0 with hx | hx
  · rcases eq_or_ne y 0 with hy | hy
    · exact absurd (by rw [hx, hy]) h
    · have := mul_self_pos.mpr hy
      nlinarith [mul_self_nonneg x]
  · have := mul_self_pos.mpr hx
    nlinarith [mul_self_nonneg y]

lemma record_move_attempts_eq (recording : List IVec2)
    (events : List MoveAttempt) :
    record_move_attempts recording events
      = recording ++ events.map MoveAttempt.offset := by
  induction events generalizing recording with
  | nil => simp [record_move_attempts]
  | cons e rest ih =>
      show record_move_attempts (recording ++ [e.offset]) rest = _
      rw [ih]
      simp

lemma foldl_dropLast_eq_nil (xs : List Nat) (l : List IVec2)
    (h : l.length ≤ xs.length) :
    xs.foldl (fun moves _ => moves.dropLast) l = [] := by
  induction xs generalizing l with
  | nil =>
      have : l = [] := List.eq_nil_of_length_eq_zero (Nat.le_zero.mp h)
      simp [this]
  | cons x rest ih =>
      show rest.foldl (fun moves _ => moves.dropLast) l.dropLast = []
      apply ih
      rw [List.length_dropLast]
      simp at h
      omega

lemma reset_recording_eq_nil (moves : List IVec2) :
    reset_recording moves = [] := by
  unfold reset_recording
  apply foldl_dropLast_eq_nil
  rw [List.length_range]

/-- Claim C6 (corrected from spec wording only in formal shape): the move
pipeline panics on a tick exactly when more than one `MoveAttempt` event
exists in that tick; with zero or one attempt no failure occurs. -/
theorem C6_multiple_attempts_panic (events : List MoveAttempt)
    (s : PlayerState) :
    is_panic (move_player_on_grid events s) = true ↔ events.length > 1 := by
  cases events with
  | nil => simp [move_player_on_grid, is_panic]
  | cons a rest =>
      cases rest with
      | nil => simp [move_player_on_grid, is_panic]
      | cons b rest2 =>
          simp only [move_player_on_grid, is_panic, List.length_cons]
          constructor
          · intro _; omega
          · intro _; trivial

/-- Claim C4 counterexample: with fuel 0, the attempt with offset `(0,1)`
is rejected (state unchanged), yet `record_move_attempts` appends `(0,1)`
to the recording. -/
theorem C4_counterexample :
    accepted ⟨⟨0, 4⟩, ⟨0, 0⟩⟩ ⟨⟨0, 1⟩⟩ = false
    ∧ move_tick ⟨⟨⟨0, 4⟩, ⟨0, 0⟩⟩, []⟩ [⟨⟨0, 1⟩⟩]
        = Except.ok ⟨⟨⟨0, 4⟩, ⟨0, 0⟩⟩, [⟨0, 1⟩]⟩ :=
  ⟨rfl, rfl⟩

/-- Claim C4 (amended): on every non-panicking tick the recording receives
the offsets of all `MoveAttempt` events of the tick — accepted or rejected —
appended in event order. -/
theorem C4_records_all_attempts (st : TickState) (events : List MoveAttempt)
    (res : TickState) (h : move_tick st events = Except.ok res) :
    res.recording = st.recording ++ events.map MoveAttempt.offset := by
  unfold move_tick at h
  cases hm : move_player_on_grid events st.player with
  | error e => rw [hm] at h; cases h
  | ok p =>
      rw [hm] at h
      cases h
      exact record_move_attempts_eq st.recording events

theorem C4_records_all_attempts_witness :
    (⟨⟨⟨0, 4⟩, ⟨0, 0⟩⟩, [⟨1, 0⟩, ⟨0, 1⟩]⟩ : TickState).recording
      = (⟨⟨⟨0, 4⟩, ⟨0, 0⟩⟩, [⟨1, 0⟩]⟩ : TickState).recording
        ++ ([⟨⟨0, 1⟩⟩] : List MoveAttempt).map MoveAttempt.offset :=
  C4_records_all_attempts ⟨⟨⟨0, 4⟩, ⟨0, 0⟩⟩, [⟨1, 0⟩]⟩ [⟨⟨0, 1⟩⟩]
    ⟨⟨⟨0, 4⟩, ⟨0, 0⟩⟩, [⟨1, 0⟩, ⟨0, 1⟩]⟩ rfl

/-- Claim C5 counterexample: pressing Right and Up together stores the
diagonal offset `(1,1)` in the buffer, overwriting the previous value
`(0,0)` although more than one direction was pressed. -/
theorem C5_counterexample :
    process_movement_input ⟨true, false, false, true⟩ ⟨0, 0⟩ = ⟨1, 1⟩
    ∧ (⟨1, 1⟩ : IVec2) ≠ ⟨0, 0⟩ :=
  ⟨rfl, by decide⟩

/-- Claim C5 (amended): the buffer stores the combined offset of the
just-pressed directions whenever that offset is nonzero — diagonal
combinations included; only a zero combined offset (nothing pressed, or
opposite presses cancelling) leaves the previously buffered offset
unchanged. -/
theorem C5_nonzero_offset_stored (p : PressedDirections) (next_move : IVec2) :
    (movement_offset p ≠ ⟨0, 0⟩ →
      process_movement_input p next_move = movement_offset p)
    ∧ (movement_offset p = ⟨0, 0⟩ →
      process_movement_input p next_move = next_move) := by
  constructor
  · intro h
    have hpos := length_squared_pos (movement_offset p) h
    unfold process_movement_input
    dsimp only
    rw [if_pos hpos]
  · intro h
    unfold process_movement_input
    dsimp only
    rw [h]
    norm_num [length_squared]

theorem C5_nonzero_offset_stored_witness :
    process_movement_input ⟨true, false, false, false⟩ ⟨9, 9⟩ = ⟨1, 0⟩
    ∧ process_movement_input ⟨true, true, false, false⟩ ⟨9, 9⟩ = ⟨9, 9⟩ :=
  ⟨(C5_nonzero_offset_stored ⟨true, false, false, false⟩ ⟨9, 9⟩).1 (by decide),
   (C5_nonzero_offset_stored ⟨true, true, false, false⟩ ⟨9, 9⟩).2 (by decide)⟩

/-- Claim C7: `detect_game_over` transitions to the terminal state on a tick
if and only if the player's translation animation is finished and the
player's grid location is the goal cell `(MAX_X - 1, 0)`; in particular it
never fires while the animation is running, even at the goal. -/
theorem C7_game_over_iff (location : IVec2) (anim_finished : Bool) :
    detect_game_over location anim_finished = true
      ↔ (anim_finished = true ∧ location = goal_cell) := by
  cases anim_finished with
  | false => simp [detect_game_over]
  | true => simp [detect_game_over]

/-- Claim C8: recording/replay round trip.  For any attempt sequence, let
`S` be the offsets of its accepted moves.  Replaying `S` from the same
initial state through the same validator accepts every offset of `S` and
produces the identical sequence of grid locations, in the same order, as
the original run's accepted moves. -/
theorem C8_replay_round_trip (s : PlayerState) (attempts : List MoveAttempt) :
    replay_loc_trace s (accepted_offsets s attempts)
      = accepted_loc_trace s attempts
    ∧ replay_all_accepted s (accepted_offsets s attempts) = true := by
  induction attempts generalizing s with
  | nil => exact ⟨rfl, rfl⟩
  | cons a rest ih =>
      have heta : (⟨a.offset⟩ : MoveAttempt) = a := rfl
      cases ha : accepted s a with
      | true =>
          have h1 := (ih (apply_move_attempt s a)).1
          have h2 := (ih (apply_move_attempt s a)).2
          constructor
          · simp only [accepted_offsets, accepted_loc_trace, ha, if_true,
              replay_loc_trace, heta]
            rw [h1]
          · simp only [accepted_offsets, ha, if_true, replay_all_accepted, heta]
            simp [ha, h2]
      | false =>
          have hnoop := apply_move_attempt_rejected s a ha
          constructor
          · simp only [accepted_offsets, accepted_loc_trace, ha, hnoop]
            simp only [Bool.false_eq_true, if_false]
            exact (ih s).1
          · simp only [accepted_offsets, ha, hnoop]
            simp only [Bool.false_eq_true, if_false]
            exact (ih s).2

/-- Claim C9 counterexample: a single playthrough — four moves right and
four moves down from the start cell reach the goal, entering `GameOver`
with one completed playthrough and eight recorded offsets — followed by
one Restart press.  The nonempty recording is cleared although only
iteration 0 ever ran (the machine has no second iteration at all). -/
theorem C9_counterexample :
    run_app initial_model
      (List.replicate 4 (GameEvent.tick [⟨⟨1, 0⟩⟩] true)
        ++ List.replicate 4 (GameEvent.tick [⟨⟨0, -1⟩⟩] true))
      = Except.ok ⟨AppState.GameOver, ⟨⟨4, 0⟩, ⟨0, 0⟩⟩,
          [⟨1, 0⟩, ⟨1, 0⟩, ⟨1, 0⟩, ⟨1, 0⟩,
           ⟨0, -1⟩, ⟨0, -1⟩, ⟨0, -1⟩, ⟨0, -1⟩], 1⟩
    ∧ step_app ⟨AppState.GameOver, ⟨⟨4, 0⟩, ⟨0, 0⟩⟩,
          [⟨1, 0⟩, ⟨1, 0⟩, ⟨1, 0⟩, ⟨1, 0⟩,
           ⟨0, -1⟩, ⟨0, -1⟩, ⟨0, -1⟩, ⟨0, -1⟩], 1⟩ GameEvent.restart
        = Except.ok ⟨AppState.Playing, initial_player, [], 1⟩ :=
  ⟨rfl, rfl⟩

/-- Claim C9 (amended): the recording is reset to empty on every exit from
the game-over state, i.e. after each single playthrough; the code tracks no
loop iterations and never waits for a second one. -/
theorem C9_reset_on_every_game_over_exit (m : AppModel)
    (h : m.state = AppState.GameOver) :
    step_app m GameEvent.restart
      = Except.ok ⟨AppState.Playing, initial_player, [],
                   m.completed_playthroughs⟩ := by
  rcases m with ⟨st, p, rec, c⟩
  cases h
  show step_app ⟨AppState.GameOver, p, rec, c⟩ GameEvent.restart = _
  unfold step_app
  rw [reset_recording_eq_nil]

theorem C9_reset_on_every_game_over_exit_witness :
    (⟨AppState.GameOver, ⟨⟨4, 0⟩, ⟨0, 0⟩⟩, [⟨1, 0⟩], 1⟩ : AppModel).state
        = AppState.GameOver
    ∧ step_app ⟨AppState.GameOver, ⟨⟨4, 0⟩, ⟨0, 0⟩⟩, [⟨1, 0⟩], 1⟩
        GameEvent.restart
      = Except.ok ⟨AppState.Playing, initial_player, [], 1⟩ :=
  ⟨rfl, C9_reset_on_every_game_over_exit
    ⟨AppState.GameOver, ⟨⟨4, 0⟩, ⟨0, 0⟩⟩, [⟨1, 0⟩], 1⟩ rfl⟩
